import Mathlib

/-!
Verification development for the ii AI backend streaming proxy
(dots/.config/quickshell/ii/ai/streaming.py).

The Python handler is shallowly embedded: the stateful streaming loop of
StreamHandler.handle_streaming becomes a pure function over an explicit
state record, with the external world (the wall clock, the downstream
socket, the upstream API and the tool executor) supplied as oracle
functions.  Machine details that no proved property depends on are
abstracted with a comment at the point of abstraction.
-/

set_option maxHeartbeats 1000000

/-- Usage statistics as carried inside a usage event
(prompt_tokens / completion_tokens / total_tokens). -/
structure UsageStats where
  prompt_tokens : Nat
  completion_tokens : Nat
  total_tokens : Nat
deriving Repr, DecidableEq

/-- The last_usage record of the streaming loop: a usage payload plus the
estimated flag stored with it (streaming.py builds dicts with an
"estimated" key; upstream-provided usage stores estimated = false). -/
structure UsageRec where
  stats : UsageStats
  estimated : Bool
deriving Repr, DecidableEq

/-- One element of the tool_calls list of a delta (streaming.py lines 362-378).
Missing/empty JSON fields are modelled as the empty string, matching the
truthiness tests tc.get("id"), tc.get("function", ...).get("name") and
...get("arguments") in the source: an absent field and an empty string are
indistinguishable to that code. index defaults to 0 via tc.get("index", 0). -/
structure ToolCallDelta where
  index : Nat
  id : String
  name : String
  arguments : String
deriving Repr, DecidableEq

/-- One accumulating entry of tool_call_buffer (initialised at
streaming.py lines 366-371 to empty id / name / args_str). -/
structure Frag where
  id : String
  name : String
  args_str : String
deriving Repr, DecidableEq

/-- The initial buffer entry ({"id": "", "name": "", "args_str": ""}). -/
def Frag.empty : Frag := { id := "", name := "", args_str := "" }

/-- Merging one tool-call delta fragment into a buffer entry
(streaming.py lines 373-378): id and name are overwritten only when the
fragment carries a non-empty value, and a non-empty arguments substring is
appended to args_str. -/
def mergeFrag (f : Frag) (tc : ToolCallDelta) : Frag :=
  { id := if tc.id = "" then f.id else tc.id
    name := if tc.name = "" then f.name else tc.name
    args_str := if tc.arguments = "" then f.args_str else f.args_str ++ tc.arguments }

/-- Keys of the tool_call_buffer dict, in insertion order: the buffer is a
Python dict keyed by the string idx:N for index N; we model it as an association list with
numeric keys whose order is the insertion order of the dict. New keys are
appended at the end, matching dict semantics (lines 366-371). -/
def bufferInsert (buffer : List (Nat × Frag)) (idx : Nat) : List (Nat × Frag) :=
  if (buffer.map Prod.fst).contains idx then buffer else buffer ++ [(idx, Frag.empty)]

/-- Update the entry of the given index in place (lines 373-378). -/
def bufferUpdate (buffer : List (Nat × Frag)) (idx : Nat) (tc : ToolCallDelta) :
    List (Nat × Frag) :=
  buffer.map (fun p => if p.1 = idx then (p.1, mergeFrag p.2 tc) else p)

/-- Processing of a single element of delta.tool_calls (lines 362-378). -/
def applyDelta (buffer : List (Nat × Frag)) (tc : ToolCallDelta) : List (Nat × Frag) :=
  bufferUpdate (bufferInsert buffer tc.index) tc.index tc

/-- Processing of a whole delta.tool_calls list, in arrival order. -/
def applyDeltas (buffer : List (Nat × Frag)) (tcs : List ToolCallDelta) :
    List (Nat × Frag) :=
  tcs.foldl applyDelta buffer

/-- The last non-empty string of a list (empty if there is none):
the value a sequence of overwrite-if-non-empty updates leaves behind. -/
def lastNonEmpty (l : List String) : String :=
  l.foldl (fun acc s => if s = "" then acc else s) ""

/-- Concatenation of a list of strings in order. -/
def concatStrings (l : List String) : String :=
  l.foldr (fun a b => a ++ b) ""

/-- Token estimator StreamHandler._estimate_tokens (streaming.py lines 49-58):
0 for empty text, otherwise max 1 ((len + 3) / 4), where (len + 3) / 4 is
the ceiling of len / 4 in integer arithmetic. -/
def estimateTokens (text : String) : Nat :=
  if text = "" then 0 else max 1 ((text.length + 3) / 4)

-- Characterisation lemmas for the fragment merge.

theorem foldl_mergeFrag_args (l : List ToolCallDelta) (f : Frag) :
    (l.foldl mergeFrag f).args_str = f.args_str ++ concatStrings (l.map (·.arguments)) := by
  induction l generalizing f with
  | nil => simp [concatStrings]
  | cons tc rest ih =>
      simp only [List.foldl_cons, List.map_cons, ih]
      show (mergeFrag f tc).args_str ++ _ = _
      by_cases h : tc.arguments = "" <;>
        simp [mergeFrag, h, concatStrings, String.append_assoc]

theorem foldl_mergeFrag_id (l : List ToolCallDelta) (f : Frag) :
    (l.foldl mergeFrag f).id =
      (l.map (·.id)).foldl (fun acc s => if s = "" then acc else s) f.id := by
  induction l generalizing f with
  | nil => rfl
  | cons tc rest ih =>
      simp only [List.foldl_cons, List.map_cons, ih]
      by_cases h : tc.id = "" <;> simp [mergeFrag, h]

theorem foldl_mergeFrag_name (l : List ToolCallDelta) (f : Frag) :
    (l.foldl mergeFrag f).name =
      (l.map (·.name)).foldl (fun acc s => if s = "" then acc else s) f.name := by
  induction l generalizing f with
  | nil => rfl
  | cons tc rest ih =>
      simp only [List.foldl_cons, List.map_cons, ih]
      by_cases h : tc.name = "" <;> simp [mergeFrag, h]

/-- Claim C2: merging any sequence of tool-call delta fragments that share one
positional index into the (initially empty) buffer entry is
fragmentation-invariant: two fragment sequences whose arguments substrings
concatenate to the same string and whose last non-empty id and last
non-empty name agree produce equal final buffer entries. -/
theorem toolcall_merge_fragmentation_invariant (l1 l2 : List ToolCallDelta)
    (hargs : concatStrings (l1.map (·.arguments)) = concatStrings (l2.map (·.arguments)))
    (hid : lastNonEmpty (l1.map (·.id)) = lastNonEmpty (l2.map (·.id)))
    (hname : lastNonEmpty (l1.map (·.name)) = lastNonEmpty (l2.map (·.name))) :
    l1.foldl mergeFrag Frag.empty = l2.foldl mergeFrag Frag.empty := by
  have h1 := foldl_mergeFrag_args l1 Frag.empty
  have h2 := foldl_mergeFrag_args l2 Frag.empty
  have h3 := foldl_mergeFrag_id l1 Frag.empty
  have h4 := foldl_mergeFrag_id l2 Frag.empty
  have h5 := foldl_mergeFrag_name l1 Frag.empty
  have h6 := foldl_mergeFrag_name l2 Frag.empty
  cases e1 : l1.foldl mergeFrag Frag.empty
  cases e2 : l2.foldl mergeFrag Frag.empty
  rw [e1] at h1 h3 h5
  rw [e2] at h2 h4 h6
  simp only [Frag.empty] at h1 h2 h3 h4 h5 h6
  simp only [Frag.mk.injEq]
  refine ⟨?_, ?_, ?_⟩
  · rw [h3, h4]; exact hid
  · rw [h5, h6]; exact hname
  · rw [h1, h2]
    simpa using hargs

/-- Witness for C2 at a concrete fragmentation pair: the same logical call
split differently (id arriving late in the second split) merges to the same
buffer entry. -/
theorem toolcall_merge_fragmentation_invariant_witness :
    ([⟨0, "a", "f", "x"⟩, ⟨0, "", "", "y"⟩] : List ToolCallDelta).foldl mergeFrag Frag.empty =
      ([⟨0, "", "f", "xy"⟩, ⟨0, "a", "", ""⟩] : List ToolCallDelta).foldl mergeFrag Frag.empty :=
  toolcall_merge_fragmentation_invariant _ _ (by decide) (by decide) (by decide)

/-- Claim C8: the token estimator is pure and satisfies: estimate of the empty
string is 0; for non-empty s it equals max 1 (ceil (len s / 4)), written here
with the Nat identity ceil (n / 4) = (n + 3) / 4; and it is monotone
non-decreasing in the length of its argument. -/
theorem estimateTokens_spec :
    estimateTokens "" = 0 ∧
    (∀ s : String, s ≠ "" → estimateTokens s = max 1 ((s.length + 3) / 4)) ∧
    (∀ s1 s2 : String, s1.length ≤ s2.length → estimateTokens s1 ≤ estimateTokens s2) := by
  refine ⟨rfl, ?_, ?_⟩
  · intro s hs
    simp [estimateTokens, hs]
  · intro s1 s2 hle
    by_cases h1 : s1 = ""
    · simp [estimateTokens, h1]
    · have h2 : s2 ≠ "" := by
        intro h2
        subst h2
        have : s1.length = 0 := Nat.le_zero.mp (by simpa using hle)
        exact h1 (by
          cases s1 with
          | mk data =>
              cases data with
              | nil => rfl
              | cons c cs => simp [String.length] at this)
      simp only [estimateTokens, h1, h2, if_false]
      omega

/-- Witness for C8 at concrete inputs. -/
theorem estimateTokens_spec_witness :
    estimateTokens "hello" = max 1 ((("hello" : String).length + 3) / 4) ∧
    estimateTokens "hi" ≤ estimateTokens "hello" :=
  ⟨estimateTokens_spec.2.1 "hello" (by decide),
   estimateTokens_spec.2.2 "hi" "hello" (by decide)⟩

-- ===================================================================
-- Embedding of StreamHandler.handle_streaming (streaming.py 60-393)
-- ===================================================================

/-- A reconstructed tool call as placed into collected_tool_calls
(streaming.py lines 198-205).  arguments holds the raw accumulated
args_str, exactly as in the source. -/
structure ToolCallSpec where
  id : String
  name : String
  arguments : String
deriving Repr, DecidableEq

/-- A conversation message.  Covers the shapes the handler reads or builds:
the assistant message of lines 244-249 and the tool messages of lines
256-260; optional fields are absent keys in the JSON dict. -/
structure Message where
  role : String
  content : String
  reasoning_content : Option String
  tool_calls : Option (List ToolCallSpec)
  tool_call_id : Option String
deriving Repr, DecidableEq

/-- The request body, restricted to the keys handle_streaming reads or
writes: messages, tools, tool_choice.  Other keys pass through untouched
and are not modelled.  tools = none models an absent "tools" key,
some [] a present-but-empty list (both falsy in the test of the source). -/
structure Body where
  messages : List Message
  tools : Option (List String)
  tool_choice : Option String
deriving Repr, DecidableEq

/-- The names of the default tool definitions injected by
get_tool_definitions (tools.py): the full JSON schemas are irrelevant to
every property below, only the fact that a non-empty list is injected. -/
def defaultToolDefs : List String :=
  ["run_shell_command", "get_shell_config", "set_shell_config"]

/-- Tool auto-injection (streaming.py lines 107-110 and 400-403). -/
def injectTools (body : Body) : Body :=
  match body.tools with
  | none => { body with tools := some defaultToolDefs, tool_choice := some "auto" }
  | some [] => { body with tools := some defaultToolDefs, tool_choice := some "auto" }
  | some _ => body

/-- Result object returned by execute_tool: success and output mirror the
dict fields; dumped stands for json.dumps(result), the serialized form used
as message content when success is falsy. -/
structure ToolResult where
  success : Bool
  output : String
  dumped : String
deriving Repr, DecidableEq

/-- The payload of one SSE data line, after the stripping and JSON parsing
of streaming.py lines 183-185 and 336-337: the [DONE] sentinel, a JSON
parse failure (malformed carries the raw text), or a parsed chunk. -/
inductive Payload where
  | done : Payload
  | malformed : String → Payload
  | chunk : Option UsageStats → String → String → List ToolCallDelta → Payload
deriving Repr, DecidableEq

/-- One line read from the upstream SSE stream: either a line that does not
start with "data:" (forwarded without processing) or a data line with its
payload.  End of stream (readline returning empty) is the end of the list. -/
inductive SSELine where
  | blank : SSELine
  | data : Payload → SSELine
deriving Repr, DecidableEq

/-- One step of the upstream read loop: a line, or an exception raised while
reading/processing it (modelling the broad except at lines 386-388). -/
inductive StreamItem where
  | line : SSELine → StreamItem
  | readError : String → StreamItem
deriving Repr, DecidableEq

/-- The outcome of one upstream streaming request. -/
inductive UpstreamTurn where
  | fail : String → UpstreamTurn
  | ok : List StreamItem → UpstreamTurn
deriving Repr, DecidableEq

/-- A synthetic event sent with _send_event.  The request_id field is an
Option because some events (the budget-exhaustion usage event of lines
86-94 and the errors sent through _send_error) carry no request_id.
The args carried by tool_execution / tool_result are the raw accumulated
args_str; the source sends json.loads(args_str) (falling back to an empty
object), an encoding step no property below depends on. -/
inductive Event where
  | usage : UsageStats → Bool → Option Nat → Event
  | error : String → Option String → Option Nat → Event
  | toolExecution : String → String → String → Event
  | toolResult : String → String → String → ToolResult → Event
  | continuation : Nat → Event
deriving Repr, DecidableEq

/-- One write attempted on the downstream socket: a synthetic event
(_send_event), a forwarded raw upstream line (line 333 or 383), or the
literal b"data: [DONE]\n\n" terminator (lines 97, 133, 300). -/
inductive OutItem where
  | event : Event → OutItem
  | raw : SSELine → OutItem
  | doneLine : OutItem
deriving Repr, DecidableEq

/-- How one invocation of the handler (one turn) ended. -/
inductive ExitKind where
  | exhausted : ExitKind
  | upstreamFail : ExitKind
  | doneNoTools : ExitKind
  | eofEnd : ExitKind
  | disconnected : ExitKind
  | loopError : ExitKind
deriving Repr, DecidableEq

/-- The external world of one handler run, supplied as oracles:
clock n is the n-th reading of time.time(), in milliseconds; rawOk n is
whether the n-th direct _write call succeeds; synthOk n whether the n-th
_send_event write succeeds; upstream n is the behaviour of the n-th
upstream streaming request; executeTool is the tool executor (receiving the
raw accumulated args_str); envOverride is the parsed value of
II_AI_MAX_TOOL_ITERATIONS, with 0 meaning unset/unparsable (the source
applies the override only when the parsed value is positive). -/
structure HandlerEnv where
  clock : Nat → Nat
  rawOk : Nat → Bool
  synthOk : Nat → Bool
  upstream : Nat → UpstreamTurn
  executeTool : String → String → ToolResult
  envOverride : Nat

/-- Observable run state: every write attempted downstream in order, the
oracle cursors, the tool executions performed in order, the number of
upstream requests issued, and whether headers were sent. -/
structure RunState where
  out : List OutItem
  clockReads : Nat
  rawWrites : Nat
  synthWrites : Nat
  toolExecs : List (String × String)
  upstreamCalls : Nat
  headersSent : Bool
deriving Repr, DecidableEq

def RunState.init : RunState :=
  { out := [], clockReads := 0, rawWrites := 0, synthWrites := 0,
    toolExecs := [], upstreamCalls := 0, headersSent := false }

/-- Mutable per-turn loop state (streaming.py lines 136-150). -/
structure LoopState where
  buffer : List (Nat × Frag)
  collectedContent : String
  collectedReasoning : String
  lastUsage : Option UsageRec
  lastUsageEmitTs : Nat
deriving Repr, DecidableEq

def LoopState.init : LoopState :=
  { buffer := [], collectedContent := "", collectedReasoning := "",
    lastUsage := none, lastUsageEmitTs := 0 }

/-- Per-turn constants: the request_id computed at line 100 and the prompt
token estimate computed at lines 145-149. -/
structure TurnCtx where
  requestId : Nat
  promptTokensEstimate : Nat
deriving Repr, DecidableEq

/-- Stand-in for json.dumps(message, ensure_ascii=False): only the length of
the serialized conversation ever reaches the estimator, and no property
below depends on the exact rendering. -/
def serializeToolCall (tc : ToolCallSpec) : String :=
  tc.id ++ tc.name ++ tc.arguments

def serializeMessage (m : Message) : String :=
  m.role ++ m.content ++ m.reasoning_content.getD "" ++ m.tool_call_id.getD "" ++
    concatStrings ((m.tool_calls.getD []).map serializeToolCall)

def serializeMessages (ms : List Message) : String :=
  concatStrings (ms.map serializeMessage)

/-- State change of a successful-or-not _send_event: the write is attempted
(recorded in out) and the synthetic-write cursor advances. -/
def recordEvent (st : RunState) (e : Event) : RunState :=
  { st with out := st.out ++ [OutItem.event e], synthWrites := st.synthWrites + 1 }

/-- _send_event (streaming.py lines 41-43): returns the state change and the
boolean _write result; every call site in handle_streaming discards the
boolean. -/
def sendEvent (env : HandlerEnv) (st : RunState) (e : Event) : RunState × Bool :=
  (recordEvent st e, env.synthOk st.synthWrites)

/-- State change of a direct _write call. -/
def recordWrite (st : RunState) (x : OutItem) : RunState :=
  { st with out := st.out ++ [x], rawWrites := st.rawWrites + 1 }

/-- _write on a raw line or on the literal [DONE] terminator (lines 32-39):
returns the state change and whether the write succeeded. -/
def writeRaw (env : HandlerEnv) (st : RunState) (x : OutItem) : RunState × Bool :=
  (recordWrite st x, env.rawOk st.rawWrites)

/-- _maybe_emit_usage_estimate (streaming.py lines 152-172).  Returns
immediately when last_usage is set; otherwise reads the clock, applies the
750 ms throttle unless forced, and emits an estimated usage event. -/
def maybeEmit (env : HandlerEnv) (ctx : TurnCtx) (force : Bool)
    (ls : LoopState) (st : RunState) : LoopState × RunState :=
  match ls.lastUsage with
  | some _ => (ls, st)
  | none =>
      let now := env.clock st.clockReads
      let st := { st with clockReads := st.clockReads + 1 }
      if !force && now - ls.lastUsageEmitTs < 750 then (ls, st)
      else
        let ct := estimateTokens (ls.collectedReasoning ++ ls.collectedContent)
        let st := (sendEvent env st (Event.usage
          ⟨ctx.promptTokensEstimate, ct, ctx.promptTokensEstimate + ct⟩
          true (some ctx.requestId))).1
        ({ ls with lastUsageEmitTs := now }, st)

/-- The pure loop-state effect of one chunk before any event emission
(streaming.py lines 338-355): capture upstream usage as authoritative with
estimated = false, then accumulate content and reasoning. -/
def chunkAbsorb (usage : Option UsageStats) (content reasoning : String)
    (ls : LoopState) : LoopState :=
  let ls := match usage with
    | some u => { ls with lastUsage := some ⟨u, false⟩ }
    | none => ls
  let ls := if content = "" then ls
    else { ls with collectedContent := ls.collectedContent ++ content }
  if reasoning = "" then ls
  else { ls with collectedReasoning := ls.collectedReasoning ++ reasoning }

/-- Processing of one parsed chunk (streaming.py lines 338-378): capture
upstream usage as authoritative, accumulate content and reasoning, emit a
throttled estimate, and merge tool-call fragments into the buffer. -/
def processChunk (env : HandlerEnv) (ctx : TurnCtx)
    (usage : Option UsageStats) (content reasoning : String)
    (tcs : List ToolCallDelta) (ls : LoopState) (st : RunState) :
    LoopState × RunState :=
  let ls := chunkAbsorb usage content reasoning ls
  let (ls, st) := maybeEmit env ctx false ls st
  let ls := if tcs.isEmpty then ls else { ls with buffer := applyDeltas ls.buffer tcs }
  (ls, st)

/-- How the per-turn read loop ended: either the turn exits the handler (with
the run state at exit) or it continues the conversation with a follow-up
body (the tail-recursive call at streaming.py line 295). -/
inductive TurnEnd where
  | exitTurn : ExitKind → RunState → TurnEnd
  | continueTurn : Body → RunState → TurnEnd
deriving Repr, DecidableEq

def TurnEnd.state : TurnEnd → RunState
  | .exitTurn _ st => st
  | .continueTurn _ st => st

def TurnEnd.contBody : TurnEnd → Option Body
  | .exitTurn _ _ => none
  | .continueTurn b _ => some b

/-- The tool-dispatch loop over the buffered fragments, in buffer (insertion)
order (streaming.py lines 191-238): entries without a resolved name are
skipped entirely; for a named entry a tool_execution event is sent, a forced
estimate emitted, the tool executed, a tool_result event sent, and another
forced estimate emitted.  Returns the reconstructed collected_tool_calls
list, the per-key tool_results association, and the updated states.
The id used in events and messages is buf.get("id", key) in the source,
but since every buffer entry is created with an "id" key the key default is
dead code and the value is always the accumulated id (possibly empty). -/
def dispatchTools (env : HandlerEnv) (ctx : TurnCtx) :
    List (Nat × Frag) → LoopState → RunState →
    List ToolCallSpec × List (Nat × ToolResult) × LoopState × RunState
  | [], ls, st => ([], [], ls, st)
  | (k, f) :: rest, ls, st =>
      if f.name = "" then dispatchTools env ctx rest ls st
      else
        let st := (sendEvent env st (Event.toolExecution f.id f.name f.args_str)).1
        let (ls, st) := maybeEmit env ctx true ls st
        let result := env.executeTool f.name f.args_str
        let st := { st with toolExecs := st.toolExecs ++ [(f.name, f.args_str)] }
        let st := (sendEvent env st (Event.toolResult f.id f.name f.args_str result)).1
        let (ls, st) := maybeEmit env ctx true ls st
        let (cs, rs, ls, st) := dispatchTools env ctx rest ls st
        (⟨f.id, f.name, f.args_str⟩ :: cs, (k, result) :: rs, ls, st)

/-- The assistant message built at streaming.py lines 244-249. -/
def mkAssistantMsg (ls : LoopState) (collected : List ToolCallSpec) : Message :=
  { role := "assistant"
    content := ls.collectedContent
    reasoning_content := if ls.collectedReasoning = "" then none else some ls.collectedReasoning
    tool_calls := some collected
    tool_call_id := none }

/-- The tool-role messages appended at streaming.py lines 252-260: one per
buffered entry that has a name and an entry in tool_results; content is the
output field on success, else the serialized result. -/
def mkToolMessages (buffer : List (Nat × Frag)) (results : List (Nat × ToolResult)) :
    List Message :=
  buffer.filterMap (fun p =>
    if p.2.name = "" then none
    else
      match results.lookup p.1 with
      | none => none
      | some r => some
          { role := "tool"
            content := if r.success then r.output else r.dumped
            reasoning_content := none
            tool_calls := none
            tool_call_id := some p.2.id })

/-- The terminal no-tool-calls usage emission at streaming.py lines 303-330:
when no authoritative usage was seen, synthesize an estimated record into
last_usage, then emit a final usage event from last_usage with its stored
estimated flag.  The guard at line 320 (last_usage is a dict with a
prompt_tokens key) always holds at this point, since both writers of
last_usage store that key; the unreachable none branch returns the state
unchanged. -/
def finalUsage (env : HandlerEnv) (ctx : TurnCtx) (body : Body)
    (ls : LoopState) (st : RunState) : LoopState × RunState :=
  let ls := match ls.lastUsage with
    | none =>
        let pt := estimateTokens (serializeMessages body.messages)
        let ct := estimateTokens (ls.collectedReasoning ++ ls.collectedContent)
        { ls with lastUsage := some ⟨⟨pt, ct, pt + ct⟩, true⟩ }
    | some _ => ls
  match ls.lastUsage with
  | some r => (ls, (sendEvent env st (Event.usage r.stats r.estimated (some ctx.requestId))).1)
  | none => (ls, st)

/-- The [DONE] branch of the read loop (streaming.py lines 185-334).  With a
non-empty buffer: dispatch the buffered tools, extend the conversation with
the assistant message and the tool messages, send the continuation event and
(when no authoritative usage was seen) the enlarged-prompt estimate, and
continue.  With an empty buffer: emit the final usage event and forward the
raw [DONE] line (whose write result line 333 ignores).  The except
ProxyError at lines 297-301 is unreachable in this model: the recursive call
catches ProxyError itself at line 114, and no other statement in that try
block raises it. -/
def handleDone (env : HandlerEnv) (ctx : TurnCtx) (body : Body)
    (ls : LoopState) (st : RunState) : TurnEnd :=
  if ls.buffer.isEmpty then
    let (_, st) := finalUsage env ctx body ls st
    let st := (writeRaw env st (OutItem.raw (SSELine.data Payload.done))).1
    TurnEnd.exitTurn ExitKind.doneNoTools st
  else
    let (collected, results, ls, st) := dispatchTools env ctx ls.buffer ls st
    let assistantMsg := mkAssistantMsg ls collected
    let toolMsgs := mkToolMessages ls.buffer results
    let body := { body with messages := body.messages ++ [assistantMsg] ++ toolMsgs }
    let st := (sendEvent env st (Event.continuation ctx.requestId)).1
    let st := match ls.lastUsage with
      | none =>
          let npt := estimateTokens (serializeMessages body.messages)
          (sendEvent env st (Event.usage ⟨npt, 0, npt⟩ true (some ctx.requestId))).1
      | some _ => st
    TurnEnd.continueTurn body st

/-- The upstream read loop (streaming.py lines 174-384): read items one at a
time; an exception while reading sends a backend error event and ends the
turn; a [DONE] data line is handled by handleDone; any other line is
processed if it parses as a chunk and is then forwarded verbatim, breaking
out of the loop if that forward fails (line 383). -/
def turnLoop (env : HandlerEnv) (ctx : TurnCtx) (body : Body) :
    List StreamItem → LoopState → RunState → TurnEnd
  | [], _, st => TurnEnd.exitTurn ExitKind.eofEnd st
  | StreamItem.readError msg :: _, _, st =>
      let st := (sendEvent env st (Event.error ("Streaming error: " ++ msg)
        (some "backend") (some ctx.requestId))).1
      TurnEnd.exitTurn ExitKind.loopError st
  | StreamItem.line SSELine.blank :: rest, ls, st =>
      let (st, ok) := writeRaw env st (OutItem.raw SSELine.blank)
      if ok then turnLoop env ctx body rest ls st
      else TurnEnd.exitTurn ExitKind.disconnected st
  | StreamItem.line (SSELine.data Payload.done) :: _, ls, st =>
      handleDone env ctx body ls st
  | StreamItem.line (SSELine.data (Payload.malformed s)) :: rest, ls, st =>
      let (st, ok) := writeRaw env st (OutItem.raw (SSELine.data (Payload.malformed s)))
      if ok then turnLoop env ctx body rest ls st
      else TurnEnd.exitTurn ExitKind.disconnected st
  | StreamItem.line (SSELine.data (Payload.chunk u c r tcs)) :: rest, ls, st =>
      let (ls, st) := processChunk env ctx u c r tcs ls st
      let (st, ok) := writeRaw env st (OutItem.raw (SSELine.data (Payload.chunk u c r tcs)))
      if ok then turnLoop env ctx body rest ls st
      else TurnEnd.exitTurn ExitKind.disconnected st

/-- The budget-exhaustion base case (streaming.py lines 79-98): a best-effort
estimated usage event (without request_id), the error event via _send_error,
and the literal [DONE] terminator. -/
def exhaustedExit (env : HandlerEnv) (body : Body) (st : RunState) : RunState :=
  let pt := estimateTokens (serializeMessages body.messages)
  let st := (sendEvent env st (Event.usage ⟨pt, 0, pt⟩ true none)).1
  let st := (sendEvent env st (Event.error
    "Max tool iterations reached (II_AI_MAX_TOOL_ITERATIONS)" none none)).1
  (writeRaw env st OutItem.doneLine).1

/-- One non-base-case invocation of handle_streaming up to the point where it
either ends or decides to continue (streaming.py lines 100-393): generate the
request_id from the clock (line 100), send headers on the first call (lines
103-105), inject tools (lines 107-110), issue the upstream request; a
ProxyError emits an estimated usage event with the request_id, the error
event via _send_error, and the literal [DONE] (lines 112-134); otherwise
compute the prompt estimate (lines 145-149) and enter the read loop. -/
def runTurn (env : HandlerEnv) (body : Body) (isFirst : Bool) (st : RunState) : TurnEnd :=
  let requestId := env.clock st.clockReads
  let st := { st with clockReads := st.clockReads + 1 }
  let st := if isFirst && !st.headersSent then { st with headersSent := true } else st
  let body := injectTools body
  let turn := env.upstream st.upstreamCalls
  let st := { st with upstreamCalls := st.upstreamCalls + 1 }
  match turn with
  | UpstreamTurn.fail msg =>
      let pt := estimateTokens (serializeMessages body.messages)
      let st := (sendEvent env st (Event.usage ⟨pt, 0, pt⟩ true (some requestId))).1
      let st := (sendEvent env st (Event.error msg none none)).1
      let st := (writeRaw env st OutItem.doneLine).1
      TurnEnd.exitTurn ExitKind.upstreamFail st
  | UpstreamTurn.ok items =>
      let pt := estimateTokens (serializeMessages body.messages)
      turnLoop env ⟨requestId, pt⟩ body items LoopState.init st

/-- StreamHandler.handle_streaming (streaming.py lines 60-393).  fuel bounds
how many turns the model unfolds; the Python source has no such bound, so a
result of none (fuel ran out) means the recursion was still running after
fuel turns.  Each invocation re-reads the environment override (lines 71-77)
and applies it whenever positive, then checks the budget base case (lines
79-98); a continuing turn recurses with the decremented budget (line 295). -/
def run (env : HandlerEnv) : Nat → Body → Bool → Int → RunState →
    RunState × Option ExitKind
  | 0, _, _, _, st => (st, none)
  | fuel + 1, body, isFirst, maxIter, st =>
      let maxIter' : Int := if 0 < env.envOverride then (env.envOverride : Int) else maxIter
      if maxIter' ≤ 0 then (exhaustedExit env body st, some ExitKind.exhausted)
      else
        match runTurn env body isFirst st with
        | TurnEnd.exitTurn k st => (st, some k)
        | TurnEnd.continueTurn body' st =>
            run env fuel body' false (maxIter' - 1) st

-- ===================================================================
-- Trace observation helpers and concrete runs
-- ===================================================================

/-- Number of error events in a downstream trace. -/
def errorEventCount (l : List OutItem) : Nat :=
  (l.filter (fun x => match x with
    | OutItem.event (Event.error _ _ _) => true
    | _ => false)).length

/-- Number of writes of the literal data: [DONE] line in a trace, whether
written directly (lines 97, 133, 300) or forwarded from upstream (line 333). -/
def doneWriteCount (l : List OutItem) : Nat :=
  (l.filter (fun x => match x with
    | OutItem.doneLine => true
    | OutItem.raw (SSELine.data Payload.done) => true
    | _ => false)).length

/-- The request_id carried by a trace item, if any. -/
def outReqId : OutItem → Option Nat
  | OutItem.event (Event.usage _ _ rid) => rid
  | OutItem.event (Event.error _ _ rid) => rid
  | OutItem.event (Event.continuation rid) => some rid
  | _ => none

/-- Whether a trace item is a usage event with estimated = true. -/
def isEstUsage : OutItem → Bool
  | OutItem.event (Event.usage _ true _) => true
  | _ => false

/-- Whether a trace item is a tool_execution or tool_result event. -/
def isToolEvent : OutItem → Bool
  | OutItem.event (Event.toolExecution _ _ _) => true
  | OutItem.event (Event.toolResult _ _ _ _) => true
  | _ => false

/-- A tool executor that always succeeds, for concrete runs. -/
def okTool : String → String → ToolResult := fun _ _ => ⟨true, "ok", "dump"⟩

/-- A minimal request body for concrete runs. -/
def bodyEmpty : Body := { messages := [], tools := none, tool_choice := none }

/-- Concrete environment for C1: II_AI_MAX_TOOL_ITERATIONS parses to 1, the
downstream client accepts every write, and the upstream answers every
request with one named tool-call fragment followed by [DONE]. -/
def envC1 : HandlerEnv :=
  { clock := fun n => 1000000 + 1000 * n
    rawOk := fun _ => true
    synthOk := fun _ => true
    upstream := fun _ => UpstreamTurn.ok
      [StreamItem.line (SSELine.data (Payload.chunk none "" "" [⟨0, "i", "t", "a"⟩])),
       StreamItem.line (SSELine.data Payload.done)]
    executeTool := okTool
    envOverride := 1 }

/-- Claim C1 (code bug): with the II_AI_MAX_TOOL_ITERATIONS override set (here
to 1) the recursive chain is unbounded, because lines 71-77 re-apply the
override on every recursive call, undoing the decrement of line 295: called
with max_iterations = 2 against an upstream that always returns tool calls,
the model makes 5 upstream turns in 5 units of fuel (none = still running),
never reaches the budget base case, and emits neither the exhaustion error
nor any [DONE]; the claim requires at most 2 upstream turns followed by
exactly one error event and one [DONE] when the budget runs out. -/
theorem env_override_defeats_iteration_budget :
    (run envC1 5 bodyEmpty true 2 RunState.init).1.upstreamCalls = 5 ∧
    (run envC1 5 bodyEmpty true 2 RunState.init).2 = none ∧
    errorEventCount (run envC1 5 bodyEmpty true 2 RunState.init).1.out = 0 ∧
    doneWriteCount (run envC1 5 bodyEmpty true 2 RunState.init).1.out = 0 := by
  decide

/-- Concrete environment for the C3 counterexample: the first upstream read
raises (e.g. a transport error inside resp.readline), with the override
unset and a healthy downstream. -/
def envRaise : HandlerEnv :=
  { clock := fun n => 1000000 + 1000 * n
    rawOk := fun _ => true
    synthOk := fun _ => true
    upstream := fun _ => UpstreamTurn.ok [StreamItem.readError "boom"]
    executeTool := okTool
    envOverride := 0 }

/-- Counterexample to claim C3: an unrecoverable error raised during the read
loop (the except Exception at streaming.py lines 386-388) emits exactly the
backend error event and returns without ever writing data: [DONE] - the
whole downstream trace is that single error event. -/
theorem read_loop_error_omits_done_counterexample :
    (run envRaise 2 bodyEmpty true 5 RunState.init).2 = some ExitKind.loopError ∧
    (run envRaise 2 bodyEmpty true 5 RunState.init).1.out =
      [OutItem.event (Event.error "Streaming error: boom" (some "backend") (some 1000000))] ∧
    doneWriteCount (run envRaise 2 bodyEmpty true 5 RunState.init).1.out = 0 := by
  decide

/-- Concrete environment for the C4 counterexample: the first turn streams one
named tool call and [DONE] (forcing a continuation), the second turn streams
a bare [DONE]; the clock advances 1000 ms per reading. -/
def envTwoTurns : HandlerEnv :=
  { clock := fun n => 1000000 + 1000 * n
    rawOk := fun _ => true
    synthOk := fun _ => true
    upstream := fun n =>
      if n = 0 then UpstreamTurn.ok
        [StreamItem.line (SSELine.data (Payload.chunk none "" "" [⟨0, "i", "t", "a"⟩])),
         StreamItem.line (SSELine.data Payload.done)]
      else UpstreamTurn.ok [StreamItem.line (SSELine.data Payload.done)]
    executeTool := okTool
    envOverride := 0 }

/-- Counterexample to claim C4: request_id is regenerated at line 100 on every
recursive call, not once per logical request: across one continuation chain
the synthetic events carry two different request_id values (1000000 during
the first turn, 1004000 during its recursive continuation). -/
theorem request_id_not_stable_across_continuations_counterexample :
    (run envTwoTurns 3 bodyEmpty true 5 RunState.init).1.out.filterMap outReqId =
      [1000000, 1000000, 1000000, 1000000, 1000000, 1004000] := by
  decide

/-- Concrete environment for the C6 counterexample: one delta carries two
named tool-call fragments whose positional indices first appear in the
order 1 then 0. -/
def envLateIdx : HandlerEnv :=
  { clock := fun n => 1000000 + 1000 * n
    rawOk := fun _ => true
    synthOk := fun _ => true
    upstream := fun n =>
      if n = 0 then UpstreamTurn.ok
        [StreamItem.line (SSELine.data (Payload.chunk none "" ""
           [⟨1, "", "b", "x"⟩, ⟨0, "", "a", "y"⟩])),
         StreamItem.line (SSELine.data Payload.done)]
      else UpstreamTurn.ok []
    executeTool := okTool
    envOverride := 0 }

/-- Counterexample to claim C6: the buffered calls are executed by iterating
the Python dict in insertion order (line 191), not in ascending numeric
index order: with indices first appearing in the order 1, 0 the tool of
index 1 (named b) is executed before the tool of index 0 (named a). -/
theorem tool_execution_not_index_ordered_counterexample :
    (run envLateIdx 3 bodyEmpty true 5 RunState.init).1.toolExecs =
      [("b", "x"), ("a", "y")] := by
  decide

-- ===================================================================
-- C3: terminal [DONE] on fatal paths
-- ===================================================================

/-- The read loop itself can only end a turn with eofEnd, loopError,
disconnected or doneNoTools; exhaustion and upstream failure are decided
before the loop starts. -/
theorem turnLoop_exit_kind (env : HandlerEnv) (ctx : TurnCtx) (body : Body) :
    ∀ (items : List StreamItem) (ls : LoopState) (st : RunState) (k : ExitKind)
      (st' : RunState),
      turnLoop env ctx body items ls st = TurnEnd.exitTurn k st' →
      k ≠ ExitKind.exhausted ∧ k ≠ ExitKind.upstreamFail := by
  intro items
  induction items with
  | nil =>
      intro ls st k st' h
      simp only [turnLoop] at h
      cases h
      simp
  | cons it rest ih =>
      intro ls st k st' h
      match it with
      | StreamItem.readError msg =>
          simp only [turnLoop] at h
          cases h
          simp
      | StreamItem.line SSELine.blank =>
          simp only [turnLoop] at h
          split at h
          · exact ih _ _ _ _ h
          · cases h; simp
      | StreamItem.line (SSELine.data Payload.done) =>
          simp only [turnLoop, handleDone] at h
          split at h
          · cases h; simp
          · cases h
      | StreamItem.line (SSELine.data (Payload.malformed s)) =>
          simp only [turnLoop] at h
          split at h
          · exact ih _ _ _ _ h
          · cases h; simp
      | StreamItem.line (SSELine.data (Payload.chunk u c r tcs)) =>
          simp only [turnLoop] at h
          split at h
          · exact ih _ _ _ _ h
          · cases h; simp

/-- A turn that exits with upstreamFail left the [DONE] terminator as its
last write, and a turn never exits with exhausted. -/
theorem runTurn_upstreamFail_done (env : HandlerEnv) (body : Body) (isFirst : Bool)
    (st : RunState) (k : ExitKind) (st' : RunState)
    (h : runTurn env body isFirst st = TurnEnd.exitTurn k st') :
    (k = ExitKind.upstreamFail → st'.out.getLast? = some OutItem.doneLine) ∧
      k ≠ ExitKind.exhausted := by
  simp only [runTurn] at h
  split at h
  · cases h
    constructor
    · intro _
      simp only [sendEvent, recordEvent, writeRaw, recordWrite]
      exact List.getLast?_concat _
    · simp
  · have hk := turnLoop_exit_kind env _ _ _ _ _ _ _ h
    exact ⟨fun hk2 => absurd hk2 hk.2, hk.1⟩

/-- Claim C3, amended: of the fatal paths, budget exhaustion and upstream
request failure (which also covers a failing follow-up request, since the
follow-up is issued by the recursive continuation) always leave the literal
data: [DONE] line as the final downstream write before returning; the
remaining fatal path, an unrecoverable error raised inside the read loop,
emits a backend error event but no [DONE]
(read_loop_error_omits_done_counterexample). -/
theorem fatal_exit_paths_end_with_done (env : HandlerEnv) :
    ∀ (fuel : Nat) (body : Body) (isFirst : Bool) (maxIter : Int) (st : RunState),
      ((run env fuel body isFirst maxIter st).2 = some ExitKind.exhausted ∨
        (run env fuel body isFirst maxIter st).2 = some ExitKind.upstreamFail) →
      ((run env fuel body isFirst maxIter st).1.out).getLast? = some OutItem.doneLine := by
  intro fuel
  induction fuel with
  | zero =>
      intro body isFirst maxIter st h
      simp only [run] at h
      rcases h with h | h <;> cases h
  | succ n ih =>
      intro body isFirst maxIter st
      simp only [run]
      split
      all_goals
        split
        · intro _h
          simp only [exhaustedExit, sendEvent, recordEvent, writeRaw, recordWrite]
          exact List.getLast?_concat _
        · split
          · rename_i heq
            intro h
            have hk := runTurn_upstreamFail_done env _ _ _ _ _ heq
            rcases h with h | h <;> rw [Option.some_inj] at h <;> subst h
            · exact absurd rfl hk.2
            · exact hk.1 rfl
          · intro h
            exact ih _ _ _ _ h

/-- Witness for the amended C3 at a concrete input: a run entered with an
exhausted budget ends with the [DONE] terminator as its last write. -/
theorem fatal_exit_paths_end_with_done_witness :
    ((run envRaise 1 bodyEmpty true 0 RunState.init).1.out).getLast? =
      some OutItem.doneLine :=
  fatal_exit_paths_end_with_done envRaise 1 bodyEmpty true 0 RunState.init
    (Or.inl (by decide))

/-- Compatibility of a trace item with the request_id of a turn. -/
def reqCompat (rid : Nat) (x : OutItem) : Prop :=
  outReqId x = none ∨ outReqId x = some rid

theorem mem_recordEvent_out {st : RunState} {e : Event} {x : OutItem} :
    x ∈ (recordEvent st e).out ↔ x ∈ st.out ∨ x = OutItem.event e := by
  simp [recordEvent]

theorem mem_recordWrite_out {st : RunState} {i : OutItem} {x : OutItem} :
    x ∈ (recordWrite st i).out ↔ x ∈ st.out ∨ x = i := by
  simp [recordWrite]

theorem maybeEmit_out_mem {env : HandlerEnv} {ctx : TurnCtx} {force : Bool}
    {ls : LoopState} {st : RunState} {ls' : LoopState} {st' : RunState}
    (h : maybeEmit env ctx force ls st = (ls', st')) :
    ∀ x ∈ st'.out, x ∈ st.out ∨ reqCompat ctx.requestId x := by
  intro x hx
  simp only [maybeEmit] at h
  split at h
  · cases h
    exact Or.inl hx
  · split at h
    · cases h
      exact Or.inl hx
    · cases h
      simp only [sendEvent] at hx
      rcases mem_recordEvent_out.mp hx with h | h
      · exact Or.inl h
      · subst h
        exact Or.inr (Or.inr rfl)

theorem processChunk_out_mem {env : HandlerEnv} {ctx : TurnCtx}
    {u : Option UsageStats} {c r : String} {tcs : List ToolCallDelta}
    {ls : LoopState} {st : RunState} {ls' : LoopState} {st' : RunState}
    (h : processChunk env ctx u c r tcs ls st = (ls', st')) :
    ∀ x ∈ st'.out, x ∈ st.out ∨ reqCompat ctx.requestId x := by
  intro x hx
  simp only [processChunk] at h
  rcases hm : maybeEmit env ctx false (chunkAbsorb u c r ls) st with ⟨lsm, stm⟩
  rw [hm] at h
  simp only at h
  cases h
  exact maybeEmit_out_mem hm x hx

theorem dispatchTools_out_mem {env : HandlerEnv} {ctx : TurnCtx} :
    ∀ {B : List (Nat × Frag)} {ls : LoopState} {st : RunState}
      {cs : List ToolCallSpec} {rs : List (Nat × ToolResult)}
      {ls' : LoopState} {st' : RunState},
      dispatchTools env ctx B ls st = (cs, rs, ls', st') →
      ∀ x ∈ st'.out, x ∈ st.out ∨ reqCompat ctx.requestId x := by
  intro B
  induction B with
  | nil =>
      intro ls st cs rs ls' st' h x hx
      simp only [dispatchTools] at h
      cases h
      exact Or.inl hx
  | cons p rest ih =>
      intro ls st cs rs ls' st' h x hx
      simp only [dispatchTools] at h
      split at h
      · exact ih h x hx
      · rcases h1 : maybeEmit env ctx true ls
          ((sendEvent env st (Event.toolExecution p.2.id p.2.name p.2.args_str)).1)
          with ⟨ls1, st1⟩
        rw [h1] at h
        rcases h2 : maybeEmit env ctx true ls1
          ((sendEvent env
            ({ st1 with toolExecs := st1.toolExecs ++ [(p.2.name, p.2.args_str)] })
            (Event.toolResult p.2.id p.2.name p.2.args_str
              (env.executeTool p.2.name p.2.args_str))).1)
          with ⟨ls2, st2⟩
        rw [h2] at h
        rcases h3 : dispatchTools env ctx rest ls2 st2 with ⟨cs3, rs3, ls3, st3⟩
        rw [h3] at h
        simp only at h
        cases h
        rcases ih h3 x hx with hx2 | hx2
        · rcases maybeEmit_out_mem h2 x hx2 with hx3 | hx3
          · simp only [sendEvent] at hx3
            rcases mem_recordEvent_out.mp hx3 with hx4 | hx4
            · rcases maybeEmit_out_mem h1 x hx4 with hx5 | hx5
              · simp only [sendEvent] at hx5
                rcases mem_recordEvent_out.mp hx5 with hx6 | hx6
                · exact Or.inl hx6
                · subst hx6
                  exact Or.inr (Or.inl rfl)
              · exact Or.inr hx5
            · subst hx4
              exact Or.inr (Or.inl rfl)
          · exact Or.inr hx3
        · exact Or.inr hx2

theorem finalUsage_out_mem {env : HandlerEnv} {ctx : TurnCtx} {body : Body}
    {ls : LoopState} {st : RunState} {ls' : LoopState} {st' : RunState}
    (h : finalUsage env ctx body ls st = (ls', st')) :
    ∀ x ∈ st'.out, x ∈ st.out ∨ reqCompat ctx.requestId x := by
  intro x hx
  simp only [finalUsage] at h
  split at h
  all_goals
    split at h
    all_goals cases h
  all_goals
    first
    | exact Or.inl hx
    | (simp only [sendEvent] at hx
       rcases mem_recordEvent_out.mp hx with h | h
       · exact Or.inl h
       · subst h
         exact Or.inr (Or.inr rfl))

theorem handleDone_out_mem {env : HandlerEnv} {ctx : TurnCtx} {body : Body}
    {ls : LoopState} {st : RunState} {te : TurnEnd}
    (h : handleDone env ctx body ls st = te) :
    ∀ x ∈ te.state.out, x ∈ st.out ∨ reqCompat ctx.requestId x := by
  intro x hx
  simp only [handleDone] at h
  split at h
  · rcases hf : finalUsage env ctx body ls st with ⟨ls1, st1⟩
    rw [hf] at h
    simp only at h
    subst h
    simp only [TurnEnd.state, writeRaw] at hx
    rcases mem_recordWrite_out.mp hx with h | h
    · exact finalUsage_out_mem hf x h
    · subst h
      exact Or.inr (Or.inl rfl)
  · rcases hd : dispatchTools env ctx ls.buffer ls st with ⟨cs, rs, ls1, st1⟩
    rw [hd] at h
    simp only at h
    split at h
    all_goals subst h
    all_goals simp only [TurnEnd.state, sendEvent] at hx
    · rcases mem_recordEvent_out.mp hx with hx1 | hx1
      · rcases mem_recordEvent_out.mp hx1 with hx2 | hx2
        · exact dispatchTools_out_mem hd x hx2
        · subst hx2
          exact Or.inr (Or.inr rfl)
      · subst hx1
        exact Or.inr (Or.inr rfl)
    · rcases mem_recordEvent_out.mp hx with hx1 | hx1
      · exact dispatchTools_out_mem hd x hx1
      · subst hx1
        exact Or.inr (Or.inr rfl)

/-- Claim C4, amended. -/
theorem request_id_stable_within_turn (env : HandlerEnv) (ctx : TurnCtx) (body : Body) :
    ∀ (items : List StreamItem) (ls : LoopState) (st : RunState),
      ∀ x ∈ (turnLoop env ctx body items ls st).state.out,
        x ∈ st.out ∨ reqCompat ctx.requestId x := by
  intro items
  induction items with
  | nil =>
      intro ls st x hx
      simp only [turnLoop, TurnEnd.state] at hx
      exact Or.inl hx
  | cons it rest ih =>
      intro ls st x hx
      match it with
      | StreamItem.readError msg =>
          simp only [turnLoop, TurnEnd.state, sendEvent] at hx
          rcases mem_recordEvent_out.mp hx with h | h
          · exact Or.inl h
          · subst h
            exact Or.inr (Or.inr rfl)
      | StreamItem.line SSELine.blank =>
          simp only [turnLoop, writeRaw] at hx
          split at hx
          · rcases ih _ _ x hx with h | h
            · rcases mem_recordWrite_out.mp h with h2 | h2
              · exact Or.inl h2
              · subst h2
                exact Or.inr (Or.inl rfl)
            · exact Or.inr h
          · simp only [TurnEnd.state] at hx
            rcases mem_recordWrite_out.mp hx with h | h
            · exact Or.inl h
            · subst h
              exact Or.inr (Or.inl rfl)
      | StreamItem.line (SSELine.data Payload.done) =>
          simp only [turnLoop] at hx
          exact handleDone_out_mem rfl x hx
      | StreamItem.line (SSELine.data (Payload.malformed s)) =>
          simp only [turnLoop, writeRaw] at hx
          split at hx
          · rcases ih _ _ x hx with h | h
            · rcases mem_recordWrite_out.mp h with h2 | h2
              · exact Or.inl h2
              · subst h2
                exact Or.inr (Or.inl rfl)
            · exact Or.inr h
          · simp only [TurnEnd.state] at hx
            rcases mem_recordWrite_out.mp hx with h | h
            · exact Or.inl h
            · subst h
              exact Or.inr (Or.inl rfl)
      | StreamItem.line (SSELine.data (Payload.chunk u c r tcs)) =>
          rcases hp : processChunk env ctx u c r tcs ls st with ⟨ls1, st1⟩
          simp only [turnLoop, hp, writeRaw] at hx
          split at hx
          · rcases ih _ _ x hx with h | h
            · rcases mem_recordWrite_out.mp h with h2 | h2
              · exact processChunk_out_mem hp x h2
              · subst h2
                exact Or.inr (Or.inl rfl)
            · exact Or.inr h
          · simp only [TurnEnd.state] at hx
            rcases mem_recordWrite_out.mp hx with h | h
            · exact processChunk_out_mem hp x h
            · subst h
              exact Or.inr (Or.inl rfl)

/-- Witness for the amended C4: a concrete item emitted by a concrete turn
(the continuation event) satisfies the request_id compatibility conclusion. -/
theorem request_id_stable_within_turn_witness :
    OutItem.event (Event.continuation 42) ∈ RunState.init.out ∨
      reqCompat 42 (OutItem.event (Event.continuation 42)) :=
  request_id_stable_within_turn envTwoTurns ⟨42, 3⟩ bodyEmpty
    [StreamItem.line (SSELine.data Payload.done)]
    { LoopState.init with buffer := [(0, ⟨"i", "t", "a"⟩)] }
    RunState.init
    (OutItem.event (Event.continuation 42)) (by decide)

/-- last_usage holds an authoritative (estimated = false) usage record. -/
def lockedReal (ls : LoopState) : Prop :=
  ∃ u : UsageStats, ls.lastUsage = some ⟨u, false⟩

theorem maybeEmit_locked {env : HandlerEnv} {ctx : TurnCtx} {force : Bool}
    {ls : LoopState} {st : RunState} {r : UsageRec} (h : ls.lastUsage = some r) :
    maybeEmit env ctx force ls st = (ls, st) := by
  simp [maybeEmit, h]

theorem chunkAbsorb_lastUsage (u : Option UsageStats) (c r : String) (ls : LoopState) :
    (chunkAbsorb u c r ls).lastUsage =
      (match u with
        | some v => some ⟨v, false⟩
        | none => ls.lastUsage) := by
  simp only [chunkAbsorb]
  cases u <;> split <;> split <;> rfl

theorem processChunk_locked {env : HandlerEnv} {ctx : TurnCtx}
    {u : Option UsageStats} {c r : String} {tcs : List ToolCallDelta}
    {ls : LoopState} {st : RunState} {ls' : LoopState} {st' : RunState}
    (hl : lockedReal (chunkAbsorb u c r ls))
    (h : processChunk env ctx u c r tcs ls st = (ls', st')) :
    st' = st ∧ lockedReal ls' := by
  obtain ⟨u0, hu0⟩ := hl
  simp only [processChunk, maybeEmit_locked hu0] at h
  cases h
  constructor
  · rfl
  · split
    · exact ⟨u0, hu0⟩
    · exact ⟨u0, hu0⟩

theorem dispatchTools_locked {env : HandlerEnv} {ctx : TurnCtx} :
    ∀ {B : List (Nat × Frag)} {ls : LoopState} {st : RunState}
      {cs : List ToolCallSpec} {rs : List (Nat × ToolResult)}
      {ls' : LoopState} {st' : RunState} {r : UsageRec},
      ls.lastUsage = some r →
      dispatchTools env ctx B ls st = (cs, rs, ls', st') →
      ls' = ls ∧ ∀ x ∈ st'.out, x ∈ st.out ∨ isEstUsage x = false := by
  intro B
  induction B with
  | nil =>
      intro ls st cs rs ls' st' r hr h
      simp only [dispatchTools] at h
      cases h
      exact ⟨rfl, fun x hx => Or.inl hx⟩
  | cons p rest ih =>
      intro ls st cs rs ls' st' r hr h
      simp only [dispatchTools, maybeEmit_locked hr] at h
      split at h
      · exact ih hr h
      · rcases h3 : dispatchTools env ctx rest ls
          ((sendEvent env
            ({ (sendEvent env st (Event.toolExecution p.2.id p.2.name p.2.args_str)).1 with
                toolExecs := (sendEvent env st
                  (Event.toolExecution p.2.id p.2.name p.2.args_str)).1.toolExecs ++
                    [(p.2.name, p.2.args_str)] })
            (Event.toolResult p.2.id p.2.name p.2.args_str
              (env.executeTool p.2.name p.2.args_str))).1)
          with ⟨cs3, rs3, ls3, st3⟩
        rw [h3] at h
        simp only at h
        cases h
        obtain ⟨hls3, hmem3⟩ := ih hr h3
        refine ⟨hls3, fun x hx => ?_⟩
        rcases hmem3 x hx with hx2 | hx2
        · simp only [sendEvent] at hx2
          rcases mem_recordEvent_out.mp hx2 with hx3 | hx3
          · rcases mem_recordEvent_out.mp hx3 with hx4 | hx4
            · exact Or.inl hx4
            · subst hx4
              exact Or.inr rfl
          · subst hx3
            exact Or.inr rfl
        · exact Or.inr hx2

theorem finalUsage_locked {env : HandlerEnv} {ctx : TurnCtx} {body : Body}
    {ls : LoopState} {st : RunState} {ls' : LoopState} {st' : RunState}
    {u0 : UsageStats} (hl : ls.lastUsage = some ⟨u0, false⟩)
    (h : finalUsage env ctx body ls st = (ls', st')) :
    ∀ x ∈ st'.out, x ∈ st.out ∨ isEstUsage x = false := by
  intro x hx
  simp only [finalUsage, hl] at h
  cases h
  simp only [sendEvent] at hx
  rcases mem_recordEvent_out.mp hx with h2 | h2
  · exact Or.inl h2
  · subst h2
    exact Or.inr rfl

theorem handleDone_locked {env : HandlerEnv} {ctx : TurnCtx} {body : Body}
    {ls : LoopState} {st : RunState} (hl : lockedReal ls) :
    ∀ x ∈ (handleDone env ctx body ls st).state.out,
      x ∈ st.out ∨ isEstUsage x = false := by
  obtain ⟨u0, hu0⟩ := hl
  intro x hx
  simp only [handleDone] at hx
  split at hx
  · rcases hf : finalUsage env ctx body ls st with ⟨ls1, st1⟩
    rw [hf] at hx
    simp only [TurnEnd.state, writeRaw] at hx
    rcases mem_recordWrite_out.mp hx with h | h
    · exact finalUsage_locked hu0 hf x h
    · subst h
      exact Or.inr rfl
  · rcases hd : dispatchTools env ctx ls.buffer ls st with ⟨cs, rs, ls1, st1⟩
    rw [hd] at hx
    obtain ⟨hls1, hmem1⟩ := dispatchTools_locked hu0 hd
    subst hls1
    simp only [hu0, TurnEnd.state, sendEvent] at hx
    rcases mem_recordEvent_out.mp hx with hx1 | hx1
    · rcases hmem1 x hx1 with h | h
      · exact Or.inl h
      · exact Or.inr h
    · subst hx1
      exact Or.inr rfl

theorem turnLoop_locked {env : HandlerEnv} {ctx : TurnCtx} {body : Body} :
    ∀ {items : List StreamItem} {ls : LoopState} {st : RunState},
      lockedReal ls →
      ∀ x ∈ (turnLoop env ctx body items ls st).state.out,
        x ∈ st.out ∨ isEstUsage x = false := by
  intro items
  induction items with
  | nil =>
      intro ls st _ x hx
      simp only [turnLoop, TurnEnd.state] at hx
      exact Or.inl hx
  | cons it rest ih =>
      intro ls st hl x hx
      match it with
      | StreamItem.readError msg =>
          simp only [turnLoop, TurnEnd.state, sendEvent] at hx
          rcases mem_recordEvent_out.mp hx with h | h
          · exact Or.inl h
          · subst h
            exact Or.inr rfl
      | StreamItem.line SSELine.blank =>
          simp only [turnLoop, writeRaw] at hx
          split at hx
          · rcases ih hl x hx with h | h
            · rcases mem_recordWrite_out.mp h with h2 | h2
              · exact Or.inl h2
              · subst h2
                exact Or.inr rfl
            · exact Or.inr h
          · simp only [TurnEnd.state] at hx
            rcases mem_recordWrite_out.mp hx with h | h
            · exact Or.inl h
            · subst h
              exact Or.inr rfl
      | StreamItem.line (SSELine.data Payload.done) =>
          simp only [turnLoop] at hx
          exact handleDone_locked hl x hx
      | StreamItem.line (SSELine.data (Payload.malformed s)) =>
          simp only [turnLoop, writeRaw] at hx
          split at hx
          · rcases ih hl x hx with h | h
            · rcases mem_recordWrite_out.mp h with h2 | h2
              · exact Or.inl h2
              · subst h2
                exact Or.inr rfl
            · exact Or.inr h
          · simp only [TurnEnd.state] at hx
            rcases mem_recordWrite_out.mp hx with h | h
            · exact Or.inl h
            · subst h
              exact Or.inr rfl
      | StreamItem.line (SSELine.data (Payload.chunk u c r tcs)) =>
          rcases hp : processChunk env ctx u c r tcs ls st with ⟨ls1, st1⟩
          have hlock1 : lockedReal (chunkAbsorb u c r ls) := by
            obtain ⟨u0, hu0⟩ := hl
            rw [lockedReal, chunkAbsorb_lastUsage]
            cases u with
            | none => exact ⟨u0, hu0⟩
            | some v => exact ⟨v, rfl⟩
          obtain ⟨hst1, hls1⟩ := processChunk_locked hlock1 hp
          subst hst1
          simp only [turnLoop, hp, writeRaw] at hx
          split at hx
          · rcases ih hls1 x hx with h | h
            · rcases mem_recordWrite_out.mp h with h2 | h2
              · exact Or.inl h2
              · subst h2
                exact Or.inr rfl
            · exact Or.inr h
          · simp only [TurnEnd.state] at hx
            rcases mem_recordWrite_out.mp hx with h | h
            · exact Or.inl h
            · subst h
              exact Or.inr rfl

/-- Claim C5: once a chunk carrying an upstream usage object has been
processed (last_usage set with estimated = false), no later event of that
turn - including the forced estimates around tool execution, the
pre-continuation prompt estimate and the final emission at [DONE] - is a
usage event with estimated = true: every item the turn adds to the trace
from that chunk onwards is either an older item or not an estimated usage
event. -/
theorem no_estimates_after_real_usage (env : HandlerEnv) (ctx : TurnCtx) (body : Body)
    (u : UsageStats) (c r : String) (tcs : List ToolCallDelta)
    (rest : List StreamItem) (ls : LoopState) (st : RunState) :
    ∀ x ∈ (turnLoop env ctx body
        (StreamItem.line (SSELine.data (Payload.chunk (some u) c r tcs)) :: rest)
        ls st).state.out,
      x ∈ st.out ∨ isEstUsage x = false := by
  intro x hx
  rcases hp : processChunk env ctx (some u) c r tcs ls st with ⟨ls1, st1⟩
  have hlock1 : lockedReal (chunkAbsorb (some u) c r ls) := by
    rw [lockedReal, chunkAbsorb_lastUsage]
    exact ⟨u, rfl⟩
  obtain ⟨hst1, hls1⟩ := processChunk_locked hlock1 hp
  subst hst1
  simp only [turnLoop, hp, writeRaw] at hx
  split at hx
  · rcases turnLoop_locked hls1 x hx with h | h
    · rcases mem_recordWrite_out.mp h with h2 | h2
      · exact Or.inl h2
      · subst h2
        exact Or.inr rfl
    · exact Or.inr h
  · simp only [TurnEnd.state] at hx
    rcases mem_recordWrite_out.mp hx with h | h
    · exact Or.inl h
    · subst h
      exact Or.inr rfl

/-- A generic healthy environment for witnesses: every write succeeds, the
override is unset. -/
def envBase : HandlerEnv :=
  { clock := fun n => 1000000 + 1000 * n
    rawOk := fun _ => true
    synthOk := fun _ => true
    upstream := fun _ => UpstreamTurn.ok []
    executeTool := okTool
    envOverride := 0 }

/-- Witness for C5: in a concrete turn whose first chunk carries upstream
usage, the forwarded [DONE] line is in the trace and the conclusion holds
for it. -/
theorem no_estimates_after_real_usage_witness :
    OutItem.raw (SSELine.data Payload.done) ∈ RunState.init.out ∨
      isEstUsage (OutItem.raw (SSELine.data Payload.done)) = false :=
  no_estimates_after_real_usage envBase ⟨7, 3⟩ bodyEmpty ⟨5, 3, 8⟩ "" "" []
    [StreamItem.line (SSELine.data Payload.done)] LoopState.init RunState.init
    (OutItem.raw (SSELine.data Payload.done)) (by decide)

theorem maybeEmit_toolExecs {env : HandlerEnv} {ctx : TurnCtx} {force : Bool}
    {ls : LoopState} {st : RunState} {ls' : LoopState} {st' : RunState}
    (h : maybeEmit env ctx force ls st = (ls', st')) :
    st'.toolExecs = st.toolExecs := by
  simp only [maybeEmit] at h
  split at h
  · cases h; rfl
  · split at h
    · cases h; rfl
    · cases h; rfl

theorem dispatchTools_toolExecs {env : HandlerEnv} {ctx : TurnCtx} :
    ∀ {B : List (Nat × Frag)} {ls : LoopState} {st : RunState}
      {cs : List ToolCallSpec} {rs : List (Nat × ToolResult)}
      {ls' : LoopState} {st' : RunState},
      dispatchTools env ctx B ls st = (cs, rs, ls', st') →
      st'.toolExecs = st.toolExecs ++ (B.filter fun p => p.2.name != "").map
        (fun p => (p.2.name, p.2.args_str)) := by
  intro B
  induction B with
  | nil =>
      intro ls st cs rs ls' st' h
      simp only [dispatchTools] at h
      cases h
      simp
  | cons p rest ih =>
      intro ls st cs rs ls' st' h
      simp only [dispatchTools] at h
      split at h
      · rename_i hn
        rw [List.filter_cons_of_neg (by simpa using hn)]
        exact ih h
      · rename_i hn
        rcases h1 : maybeEmit env ctx true ls
          ((sendEvent env st (Event.toolExecution p.2.id p.2.name p.2.args_str)).1)
          with ⟨ls1, st1⟩
        rw [h1] at h
        rcases h2 : maybeEmit env ctx true ls1
          ((sendEvent env
            ({ st1 with toolExecs := st1.toolExecs ++ [(p.2.name, p.2.args_str)] })
            (Event.toolResult p.2.id p.2.name p.2.args_str
              (env.executeTool p.2.name p.2.args_str))).1)
          with ⟨ls2, st2⟩
        rw [h2] at h
        rcases h3 : dispatchTools env ctx rest ls2 st2 with ⟨cs3, rs3, ls3, st3⟩
        rw [h3] at h
        simp only at h
        cases h
        have e3 := ih h3
        have e2 := maybeEmit_toolExecs h2
        have e1 := maybeEmit_toolExecs h1
        simp only [sendEvent, recordEvent] at e2 e1
        rw [List.filter_cons_of_pos (by simpa using hn)]
        rw [e3, e2, e1]
        simp

theorem finalUsage_toolExecs {env : HandlerEnv} {ctx : TurnCtx} {body : Body}
    {ls : LoopState} {st : RunState} {ls' : LoopState} {st' : RunState}
    (h : finalUsage env ctx body ls st = (ls', st')) :
    st'.toolExecs = st.toolExecs := by
  simp only [finalUsage] at h
  split at h
  all_goals split at h
  all_goals cases h
  all_goals rfl

theorem handleDone_toolExecs {env : HandlerEnv} {ctx : TurnCtx} {body : Body}
    {ls : LoopState} {st : RunState} {te : TurnEnd}
    (h : handleDone env ctx body ls st = te) :
    te.state.toolExecs =
      st.toolExecs ++ (ls.buffer.filter fun p => p.2.name != "").map
        (fun p => (p.2.name, p.2.args_str)) := by
  simp only [handleDone] at h
  split at h
  · rename_i he
    rw [List.isEmpty_iff.mp he]
    rcases hf : finalUsage env ctx body ls st with ⟨ls1, st1⟩
    rw [hf] at h
    simp only at h
    subst h
    simp only [TurnEnd.state, writeRaw, recordWrite]
    simpa using finalUsage_toolExecs hf
  · rcases hd : dispatchTools env ctx ls.buffer ls st with ⟨cs, rs, ls1, st1⟩
    rw [hd] at h
    simp only at h
    split at h
    all_goals subst h
    all_goals simp only [TurnEnd.state, sendEvent, recordEvent]
    all_goals exact dispatchTools_toolExecs hd

/-- dict-insertion-order key accumulation. -/
def dedupKeys (l : List Nat) : List Nat :=
  l.foldl (fun ks i => if ks.contains i then ks else ks ++ [i]) []

theorem bufferUpdate_keys (B : List (Nat × Frag)) (i : Nat) (tc : ToolCallDelta) :
    (bufferUpdate B i tc).map Prod.fst = B.map Prod.fst := by
  induction B with
  | nil => rfl
  | cons p rest ih =>
      simp only [bufferUpdate, List.map_cons] at ih ⊢
      by_cases h : p.1 = i <;> simp [h, ih]

theorem bufferInsert_keys (B : List (Nat × Frag)) (i : Nat) :
    (bufferInsert B i).map Prod.fst =
      if (B.map Prod.fst).contains i then B.map Prod.fst else B.map Prod.fst ++ [i] := by
  simp only [bufferInsert]
  split <;> simp

theorem applyDelta_keys (B : List (Nat × Frag)) (tc : ToolCallDelta) :
    (applyDelta B tc).map Prod.fst =
      if (B.map Prod.fst).contains tc.index then B.map Prod.fst
      else B.map Prod.fst ++ [tc.index] := by
  simp only [applyDelta, bufferUpdate_keys, bufferInsert_keys]

theorem applyDeltas_keys (tcs : List ToolCallDelta) :
    ∀ B : List (Nat × Frag),
      (applyDeltas B tcs).map Prod.fst =
        tcs.foldl (fun ks tc => if ks.contains tc.index then ks else ks ++ [tc.index])
          (B.map Prod.fst) := by
  induction tcs with
  | nil => intro B; rfl
  | cons tc rest ih =>
      intro B
      rw [show applyDeltas B (tc :: rest) = applyDeltas (applyDelta B tc) rest from rfl,
        ih (applyDelta B tc), applyDelta_keys, List.foldl_cons]

/-- Claim C6, amended: at [DONE] the buffered calls are executed strictly
sequentially in buffer order, which is the order in which their positional
indices first appeared in the delta stream (Python dict insertion order),
not ascending numeric index order
(tool_execution_not_index_ordered_counterexample).  First conjunct: the
executed (name, args) sequence of a turn ending at [DONE] is exactly the
named entries of the buffer in buffer order.  Second conjunct: the buffer
key order produced by merging a delta stream into an empty buffer is
first-appearance order of the indices. -/
theorem tool_execution_in_first_appearance_order :
    (∀ (env : HandlerEnv) (ctx : TurnCtx) (body : Body) (rest : List StreamItem)
        (ls : LoopState) (st : RunState),
      (turnLoop env ctx body (StreamItem.line (SSELine.data Payload.done) :: rest)
          ls st).state.toolExecs =
        st.toolExecs ++ (ls.buffer.filter fun p => p.2.name != "").map
          (fun p => (p.2.name, p.2.args_str))) ∧
    (∀ tcs : List ToolCallDelta,
      (applyDeltas [] tcs).map Prod.fst = dedupKeys (tcs.map (·.index))) := by
  constructor
  · intro env ctx body rest ls st
    simp only [turnLoop]
    exact handleDone_toolExecs rfl
  · intro tcs
    rw [applyDeltas_keys tcs []]
    simp only [dedupKeys, List.foldl_map]
    rfl

theorem dispatchTools_unnamed {env : HandlerEnv} {ctx : TurnCtx} :
    ∀ {B : List (Nat × Frag)} {ls : LoopState} {st : RunState},
      (∀ p ∈ B, p.2.name = "") →
      dispatchTools env ctx B ls st = ([], [], ls, st) := by
  intro B
  induction B with
  | nil =>
      intro ls st _
      rfl
  | cons p rest ih =>
      intro ls st hall
      simp only [dispatchTools]
      rw [if_pos (hall p (List.mem_cons_self p rest))]
      exact ih fun q hq => hall q (List.mem_cons_of_mem p hq)

theorem mkToolMessages_nil_results (B : List (Nat × Frag)) :
    mkToolMessages B [] = [] := by
  simp only [mkToolMessages]
  rw [List.filterMap_eq_nil_iff]
  intro p _hp
  split
  · rfl
  · rfl

/-- Concrete environment for C10: the first turn streams one tool-call
fragment carrying only an id (no name) and then [DONE]; the second turn
streams a bare [DONE]. -/
def envUnnamed : HandlerEnv :=
  { clock := fun n => 1000000 + 1000 * n
    rawOk := fun _ => true
    synthOk := fun _ => true
    upstream := fun n =>
      if n = 0 then UpstreamTurn.ok
        [StreamItem.line (SSELine.data (Payload.chunk none "" "" [⟨0, "i", "", ""⟩])),
         StreamItem.line (SSELine.data Payload.done)]
      else UpstreamTurn.ok [StreamItem.line (SSELine.data Payload.done)]
    executeTool := okTool
    envOverride := 0 }

/-- Claim C10: at [DONE] with a non-empty buffer none of whose fragments has
a name, the handler still takes the continuation path: it returns
continueTurn with the conversation extended by one assistant message whose
tool_calls list is empty and by no tool messages; it leaves the executed
tool list unchanged, adds no tool_execution or tool_result event, and the
continuation event is in the trace.  The final conjuncts show on a concrete
run (envUnnamed, budget 1) that the continuation recurses with the budget
decremented: the second invocation exhausts the budget after exactly one
upstream turn and no tool execution. -/
theorem unnamed_buffer_takes_continuation_path (env : HandlerEnv) (ctx : TurnCtx)
    (body : Body) (ls : LoopState) (st : RunState)
    (hne : ls.buffer ≠ []) (hun : ∀ p ∈ ls.buffer, p.2.name = "") :
    ((handleDone env ctx body ls st).contBody =
        some { body with messages := body.messages ++ [mkAssistantMsg ls []] }) ∧
    (handleDone env ctx body ls st).state.toolExecs = st.toolExecs ∧
    (∀ x ∈ (handleDone env ctx body ls st).state.out,
        x ∈ st.out ∨ isToolEvent x = false) ∧
    OutItem.event (Event.continuation ctx.requestId) ∈
        (handleDone env ctx body ls st).state.out ∧
    (run envUnnamed 3 bodyEmpty true 1 RunState.init).2 = some ExitKind.exhausted ∧
    (run envUnnamed 3 bodyEmpty true 1 RunState.init).1.upstreamCalls = 1 ∧
    (run envUnnamed 3 bodyEmpty true 1 RunState.init).1.toolExecs = [] := by
  have hie : ls.buffer.isEmpty = false := by
    cases hb : ls.buffer with
    | nil => exact absurd hb hne
    | cons a l => rfl
  have hd : handleDone env ctx body ls st =
      TurnEnd.continueTurn
        { body with messages := body.messages ++ [mkAssistantMsg ls []] }
        (match ls.lastUsage with
          | none =>
              (sendEvent env
                ((sendEvent env st (Event.continuation ctx.requestId)).1)
                (Event.usage
                  ⟨estimateTokens (serializeMessages
                      (body.messages ++ [mkAssistantMsg ls []])), 0,
                    estimateTokens (serializeMessages
                      (body.messages ++ [mkAssistantMsg ls []]))⟩
                  true (some ctx.requestId))).1
          | some _ => (sendEvent env st (Event.continuation ctx.requestId)).1) := by
    simp only [handleDone, hie, Bool.false_eq_true, if_false,
      dispatchTools_unnamed hun, mkToolMessages_nil_results]
    split <;> simp
  refine ⟨?_, ?_, ?_, ?_, by decide, by decide, by decide⟩
  · rw [hd]
    cases ls.lastUsage <;> rfl
  · rw [hd]
    cases ls.lastUsage <;> rfl
  · intro x hx
    rw [hd] at hx
    rcases hu : ls.lastUsage with _ | r
    · rw [hu] at hx
      simp only [TurnEnd.state, sendEvent] at hx
      rcases mem_recordEvent_out.mp hx with h | h
      · rcases mem_recordEvent_out.mp h with h2 | h2
        · exact Or.inl h2
        · subst h2; exact Or.inr rfl
      · subst h; exact Or.inr rfl
    · rw [hu] at hx
      simp only [TurnEnd.state, sendEvent] at hx
      rcases mem_recordEvent_out.mp hx with h | h
      · exact Or.inl h
      · subst h; exact Or.inr rfl
  · rw [hd]
    rcases hu : ls.lastUsage with _ | r
    · simp only [TurnEnd.state, sendEvent]
      exact mem_recordEvent_out.mpr
        (Or.inl (mem_recordEvent_out.mpr (Or.inr rfl)))
    · simp only [TurnEnd.state, sendEvent]
      exact mem_recordEvent_out.mpr (Or.inr rfl)

/-- Witness for C10 at a concrete unnamed buffer entry. -/
theorem unnamed_buffer_takes_continuation_path_witness :
    (handleDone envBase ⟨7, 3⟩ bodyEmpty
        { LoopState.init with buffer := [(0, ⟨"i", "", ""⟩)] } RunState.init).contBody =
      some { bodyEmpty with messages := bodyEmpty.messages ++
        [mkAssistantMsg { LoopState.init with buffer := [(0, ⟨"i", "", ""⟩)] } []] } :=
  (unnamed_buffer_takes_continuation_path envBase ⟨7, 3⟩ bodyEmpty
    { LoopState.init with buffer := [(0, ⟨"i", "", ""⟩)] } RunState.init
    (by decide) (by decide)).1

-- ===================================================================
-- Embedding of StreamHandler.handle_non_streaming (streaming.py 395-451)
-- ===================================================================

/-- The parsed body of one non-streaming upstream response: the message read
from choices[0].message plus an opaque remainder standing for every other
key of the response object, so that returned-as-is is statable as identity.
The json.loads of the raw bytes is absorbed into the oracle: a response that
fails to parse is a fail outcome, exactly as the except at lines 409-412
treats it. -/
structure NSResponse where
  message : Message
  rest : String
deriving Repr, DecidableEq

/-- Outcome of one non-streaming upstream request; fail carries the final
error message (str(e) for a ProxyError, the Request failed rendering for
any other exception). -/
inductive NSUpstream where
  | fail : String → NSUpstream
  | ok : NSResponse → NSUpstream
deriving Repr, DecidableEq

/-- The value handle_non_streaming returns: an error dict or a response
object passed through. -/
inductive NSReturn where
  | errorMsg : String → NSReturn
  | response : NSResponse → NSReturn
deriving Repr, DecidableEq

/-- Observable outcome of a non-streaming run: the returned value, the tool
executions performed in order, and the body of every upstream request
issued, in order. -/
structure NSRun where
  ret : NSReturn
  toolExecs : List (String × String)
  requests : List Body
deriving Repr, DecidableEq

/-- The tool-role message appended per tool call (streaming.py lines
423-438): content is the output field when truthy, else the serialized
result object (result.get("output", "") or json.dumps(result)). -/
def nsToolMessage (executeTool : String → String → ToolResult)
    (tc : ToolCallSpec) : Message :=
  let result := executeTool tc.name tc.arguments
  { role := "tool"
    content := if result.output = "" then result.dumped else result.output
    reasoning_content := none
    tool_calls := none
    tool_call_id := some tc.id }

/-- StreamHandler.handle_non_streaming (streaming.py lines 395-451): inject
tools, issue one request; on a message carrying tool calls, execute each
sequentially, append the assistant message and one tool message per call,
delete the tools key, issue exactly one follow-up request and return its
parsed body unchanged. -/
def handleNonStreaming (upstream : Nat → NSUpstream)
    (executeTool : String → String → ToolResult) (body : Body) : NSRun :=
  let body := injectTools body
  match upstream 0 with
  | NSUpstream.fail msg =>
      { ret := NSReturn.errorMsg msg, toolExecs := [], requests := [body] }
  | NSUpstream.ok resp =>
      let toolCalls := resp.message.tool_calls.getD []
      if toolCalls.isEmpty then
        { ret := NSReturn.response resp, toolExecs := [], requests := [body] }
      else
        let toolMsgs := toolCalls.map (nsToolMessage executeTool)
        let body2 := { body with
          messages := body.messages ++ [resp.message] ++ toolMsgs
          tools := none }
        match upstream 1 with
        | NSUpstream.fail msg =>
            { ret := NSReturn.errorMsg ("Tool follow-up failed: " ++ msg)
              toolExecs := toolCalls.map (fun tc => (tc.name, tc.arguments))
              requests := [body, body2] }
        | NSUpstream.ok resp2 =>
            { ret := NSReturn.response resp2
              toolExecs := toolCalls.map (fun tc => (tc.name, tc.arguments))
              requests := [body, body2] }

/-- Claim C7: when the first non-streaming response carries tool calls and
the follow-up succeeds, each first-round call is executed sequentially in
order, exactly two upstream requests are issued, the follow-up body extends
the conversation with the assistant message and one tool message per call
and omits the tools key, and the follow-up response is returned as-is -
in particular no tool call of the follow-up response is ever executed,
whatever that response contains. -/
theorem non_streaming_single_followup
    (upstream : Nat → NSUpstream) (executeTool : String → String → ToolResult)
    (body : Body) (r1 r2 : NSResponse) (tcs : List ToolCallSpec)
    (h0 : upstream 0 = NSUpstream.ok r1)
    (htc : r1.message.tool_calls = some tcs) (hne : tcs ≠ [])
    (h1 : upstream 1 = NSUpstream.ok r2) :
    (handleNonStreaming upstream executeTool body).ret = NSReturn.response r2 ∧
    (handleNonStreaming upstream executeTool body).toolExecs =
      tcs.map (fun tc => (tc.name, tc.arguments)) ∧
    (handleNonStreaming upstream executeTool body).requests =
      [injectTools body,
       { injectTools body with
          messages := (injectTools body).messages ++ [r1.message] ++
            tcs.map (nsToolMessage executeTool)
          tools := none }] := by
  have hie : tcs.isEmpty = false := by
    cases tcs with
    | nil => exact absurd rfl hne
    | cons a l => rfl
  simp only [handleNonStreaming, h0, htc, h1, Option.getD_some, hie,
    Bool.false_eq_true, if_false]
  exact ⟨trivial, trivial, trivial⟩

/-- Concrete data for the C7 witness: the first response asks for one tool
call, the follow-up response itself carries another tool call. -/
def nsMsgW : Message :=
  { role := "assistant", content := "", reasoning_content := none,
    tool_calls := some [⟨"1", "f", "a"⟩], tool_call_id := none }

def nsMsgW2 : Message :=
  { role := "assistant", content := "", reasoning_content := none,
    tool_calls := some [⟨"2", "g", "b"⟩], tool_call_id := none }

def nsUpW : Nat → NSUpstream := fun n =>
  if n = 0 then NSUpstream.ok ⟨nsMsgW, "x"⟩ else NSUpstream.ok ⟨nsMsgW2, "y"⟩

/-- Witness for C7: the concrete follow-up response (which itself contains a
second tool call) is returned as-is and only the first-round tool runs. -/
theorem non_streaming_single_followup_witness :
    (handleNonStreaming nsUpW okTool bodyEmpty).ret =
      NSReturn.response ⟨nsMsgW2, "y"⟩ ∧
    (handleNonStreaming nsUpW okTool bodyEmpty).toolExecs = [("f", "a")] := by
  have h := non_streaming_single_followup nsUpW okTool bodyEmpty
    ⟨nsMsgW, "x"⟩ ⟨nsMsgW2, "y"⟩ [⟨"1", "f", "a"⟩]
    (by decide) (by decide) (by decide) (by decide)
  exact ⟨h.1, by rw [h.2.1]; rfl⟩

theorem dispatchTools_synth_irrelevant (e : HandlerEnv) (s1 s2 : Nat → Bool)
    (ctx : TurnCtx) :
    ∀ (B : List (Nat × Frag)) (ls : LoopState) (st : RunState),
      dispatchTools { e with synthOk := s1 } ctx B ls st =
        dispatchTools { e with synthOk := s2 } ctx B ls st := by
  intro B
  induction B with
  | nil => intro ls st; rfl
  | cons p rest ih =>
      intro ls st
      simp only [dispatchTools]
      split
      · exact ih _ _
      · rw [ih]
        rfl

theorem handleDone_synth_irrelevant (e : HandlerEnv) (s1 s2 : Nat → Bool)
    (ctx : TurnCtx) (body : Body) (ls : LoopState) (st : RunState) :
    handleDone { e with synthOk := s1 } ctx body ls st =
      handleDone { e with synthOk := s2 } ctx body ls st := by
  simp only [handleDone]
  split
  · rfl
  · rw [dispatchTools_synth_irrelevant e s1 s2]
    rfl

theorem turnLoop_synth_irrelevant (e : HandlerEnv) (s1 s2 : Nat → Bool)
    (ctx : TurnCtx) (body : Body) :
    ∀ (items : List StreamItem) (ls : LoopState) (st : RunState),
      turnLoop { e with synthOk := s1 } ctx body items ls st =
        turnLoop { e with synthOk := s2 } ctx body items ls st := by
  intro items
  induction items with
  | nil => intro ls st; rfl
  | cons it rest ih =>
      intro ls st
      match it with
      | StreamItem.readError msg => rfl
      | StreamItem.line SSELine.blank =>
          simp only [turnLoop]
          rw [ih]
          rfl
      | StreamItem.line (SSELine.data Payload.done) =>
          simp only [turnLoop]
          exact handleDone_synth_irrelevant e s1 s2 ctx body ls st
      | StreamItem.line (SSELine.data (Payload.malformed s)) =>
          simp only [turnLoop]
          rw [ih]
          rfl
      | StreamItem.line (SSELine.data (Payload.chunk u c r tcs)) =>
          simp only [turnLoop]
          rw [ih]
          rfl

theorem runTurn_synth_irrelevant (e : HandlerEnv) (s1 s2 : Nat → Bool)
    (body : Body) (isFirst : Bool) (st : RunState) :
    runTurn { e with synthOk := s1 } body isFirst st =
      runTurn { e with synthOk := s2 } body isFirst st := by
  simp only [runTurn]
  split
  · rfl
  · exact turnLoop_synth_irrelevant e s1 s2 _ _ _ _ _

theorem run_synth_irrelevant (e : HandlerEnv) (s1 s2 : Nat → Bool) :
    ∀ (fuel : Nat) (body : Body) (isFirst : Bool) (maxIter : Int) (st : RunState),
      run { e with synthOk := s1 } fuel body isFirst maxIter st =
        run { e with synthOk := s2 } fuel body isFirst maxIter st := by
  intro fuel
  induction fuel with
  | zero => intro body isFirst maxIter st; rfl
  | succ n ih =>
      intro body isFirst maxIter st
      simp only [run]
      rw [runTurn_synth_irrelevant e s1 s2]
      split
      all_goals
        split
        · rfl
        · split
          · rfl
          · exact ih _ _ _ _

theorem turnLoop_no_disconnect {env : HandlerEnv} {ctx : TurnCtx} {body : Body}
    (henv : env.rawOk = fun _ => true) :
    ∀ {items : List StreamItem} {ls : LoopState} {st : RunState} {k : ExitKind}
      {st' : RunState},
      turnLoop env ctx body items ls st = TurnEnd.exitTurn k st' →
      k ≠ ExitKind.disconnected := by
  intro items
  induction items with
  | nil =>
      intro ls st k st' h
      cases h
      simp
  | cons it rest ih =>
      intro ls st k st' h
      match it with
      | StreamItem.readError msg =>
          cases h
          simp
      | StreamItem.line SSELine.blank =>
          simp only [turnLoop, writeRaw, henv] at h
          exact ih h
      | StreamItem.line (SSELine.data Payload.done) =>
          simp only [turnLoop, handleDone] at h
          split at h
          · cases h; simp
          · cases h
      | StreamItem.line (SSELine.data (Payload.malformed s)) =>
          simp only [turnLoop, writeRaw, henv] at h
          exact ih h
      | StreamItem.line (SSELine.data (Payload.chunk u c r tcs)) =>
          simp only [turnLoop, writeRaw, henv] at h
          exact ih h

theorem runTurn_no_disconnect {env : HandlerEnv} {body : Body} {isFirst : Bool}
    {st : RunState} {k : ExitKind} {st' : RunState}
    (henv : env.rawOk = fun _ => true)
    (h : runTurn env body isFirst st = TurnEnd.exitTurn k st') :
    k ≠ ExitKind.disconnected := by
  simp only [runTurn] at h
  split at h
  · cases h; simp
  · exact turnLoop_no_disconnect henv h

theorem run_no_disconnect (e : HandlerEnv) :
    ∀ (fuel : Nat) (body : Body) (isFirst : Bool) (maxIter : Int) (st : RunState),
      e.rawOk = (fun _ => true) →
      (run e fuel body isFirst maxIter st).2 ≠ some ExitKind.disconnected := by
  intro fuel
  induction fuel with
  | zero =>
      intro body isFirst maxIter st _ h
      simp only [run] at h
      cases h
  | succ n ih =>
      intro body isFirst maxIter st henv
      simp only [run]
      split
      all_goals
        split
        · simp
        · split
          · rename_i heq
            intro h
            rw [Option.some_inj] at h
            exact runTurn_no_disconnect henv heq h
          · exact ih _ _ _ _ henv

/-- Claim C9: a broken downstream pipe while writing any synthetic event is
swallowed by _write returning False and never alters control flow.  First
conjunct: the whole observable run - every write attempted, every tool
executed, every line processed and the exit kind - is identical for any two
behaviours of the synthetic-event writes, since every _send_event call site
in handle_streaming discards the result.  Second conjunct: the read loop
terminates early with a disconnect only on a failed raw-line forward (line
383): when every direct _write succeeds the run never exits disconnected,
whatever the synthetic writes did. -/
theorem synthetic_write_failures_never_alter_control_flow :
    (∀ (e : HandlerEnv) (s1 s2 : Nat → Bool) (fuel : Nat) (body : Body)
        (isFirst : Bool) (maxIter : Int) (st : RunState),
      run { e with synthOk := s1 } fuel body isFirst maxIter st =
        run { e with synthOk := s2 } fuel body isFirst maxIter st) ∧
    (∀ (e : HandlerEnv) (fuel : Nat) (body : Body) (isFirst : Bool)
        (maxIter : Int) (st : RunState),
      e.rawOk = (fun _ => true) →
      (run e fuel body isFirst maxIter st).2 ≠ some ExitKind.disconnected) :=
  ⟨fun e s1 s2 => run_synth_irrelevant e s1 s2, run_no_disconnect⟩

/-- Witness for C9 (second conjunct) at a concrete environment whose raw
writes all succeed. -/
theorem synthetic_write_failures_never_alter_control_flow_witness :
    (run envBase 1 bodyEmpty true 5 RunState.init).2 ≠ some ExitKind.disconnected :=
  synthetic_write_failures_never_alter_control_flow.2 envBase 1 bodyEmpty true 5
    RunState.init rfl
